import Mathlib

/- Verification development for the smartselect text-classification model
   (smartselect/text-classification-model).  The public header declares the
   container `TextClassificationModel` with its inference entry points
   `SuggestSelection`, `ClassifyText` and `Annotate`, the chunker `Chunk`,
   the internal selection routines, and the free function
   `StripUnpairedBrackets`.  The method bodies live in the implementation
   file, which is not among the sources; where a body is needed it is
   modelled from the specification, as noted on each definition.  Strings
   are embedded as lists of unicode codepoints (`List Char`), so codepoint
   indices are plain list indices.  Network scores (C++ `float`) are
   modelled as rationals, and the `-infinity` sentinel score as `none`. -/

namespace libtextclassifier

/-- A codepoint span `(first, one-past-last)` of codepoint indices into the
context string, as described in the header.  Indices are signed, with `-1`
as the invalid sentinel. -/
abbrev CodepointSpan := Int × Int

/-- A span measured in token units, used to bound how many tokens around a
click are considered. -/
abbrev TokenSpan := Int × Int

/-- Modelled from the spec: the sentinel "invalid index" value used for
undefined spans (declared in the upstream types header, which is not among
the sources). -/
def kInvalidIndex : Int := -1

/-- A span is valid for a context when `0 <= first <= last <= length`. -/
def validSpan (context : List Char) (sp : CodepointSpan) : Prop :=
  0 ≤ sp.1 ∧ sp.1 ≤ sp.2 ∧ sp.2 ≤ (context.length : Int)

instance (context : List Char) (sp : CodepointSpan) : Decidable (validSpan context sp) := by
  unfold validSpan; infer_instance

/-- The codepoints of the context covered by a span. -/
def spanText (context : List Char) (sp : CodepointSpan) : List Char :=
  (context.drop sp.1.toNat).take (sp.2 - sp.1).toNat

/-- Whether a span covers only whitespace codepoints (vacuously true for a
span covering no codepoints). -/
def spanIsWhitespace (context : List Char) (sp : CodepointSpan) : Bool :=
  (spanText context sp).all Char.isWhitespace

/-- Width of a span in codepoints. -/
def spanWidth (sp : CodepointSpan) : Int := sp.2 - sp.1

/-- Modelled from the spec: the opening/closing bracket pairing table used
by the bracket-stripping post-processing step (the implementation's table
lives in the missing implementation file). -/
def bracketPairs : List (Char × Char) :=
  [('(', ')'), ('[', ']'), (Char.ofNat 123, Char.ofNat 125), ('<', '>')]

/-- The opening bracket paired with a closing bracket, if `c` is one. -/
def openingFor (c : Char) : Option Char :=
  (bracketPairs.find? (fun p => p.2 == c)).map Prod.fst

/-- The closing bracket paired with an opening bracket, if `c` is one. -/
def closingFor (c : Char) : Option Char :=
  (bracketPairs.find? (fun p => p.1 == c)).map Prod.snd

/-- Whether the first codepoint of the span is a closing-type bracket whose
paired opening bracket does not occur inside the span. -/
def stripStartB (context : List Char) (sp : CodepointSpan) : Bool :=
  match (spanText context sp).head? with
  | none => false
  | some c =>
    match openingFor c with
    | none => false
    | some o => !((spanText context sp).contains o)

/-- Whether the last codepoint of the span is an opening-type bracket whose
paired closing bracket does not occur inside the span. -/
def stripEndB (context : List Char) (sp : CodepointSpan) : Bool :=
  match (spanText context sp).getLast? with
  | none => false
  | some c =>
    match closingFor c with
    | none => false
    | some cl => !((spanText context sp).contains cl)

/-- Modelled from the spec: `StripUnpairedBrackets` (free function declared
in the header; body in the missing implementation file).  Each side whose
edge codepoint is an unpaired bracket is shrunk by one codepoint, both
sides judged independently on the input span; a shrink that would invert
the span leaves that side unchanged. -/
def StripUnpairedBrackets (context : List Char) (sp : CodepointSpan) : CodepointSpan :=
  let f := if stripStartB context sp = true ∧ sp.1 + 1 ≤ sp.2 then sp.1 + 1 else sp.1
  let l := if stripEndB context sp = true ∧ f ≤ sp.2 - 1 then sp.2 - 1 else sp.2
  (f, l)

/-- Position order on spans: earlier start first, ties broken by the end
index. -/
def spanLeP (a b : CodepointSpan) : Prop :=
  a.1 < b.1 ∨ (a.1 = b.1 ∧ a.2 ≤ b.2)

instance : DecidableRel spanLeP := fun a b => by unfold spanLeP; infer_instance

instance : IsTotal CodepointSpan spanLeP := ⟨by intro a b; unfold spanLeP; omega⟩

instance : IsTrans CodepointSpan spanLeP := ⟨by intro a b c; unfold spanLeP; omega⟩

/-- Sort candidate spans by their position in the context string. -/
def sortSpans (l : List CodepointSpan) : List CodepointSpan :=
  List.insertionSort spanLeP l

/-- Strict order on optional scores; `none` models the `-infinity` sentinel
and is below every real score. -/
def scoreLt : Option ℚ → Option ℚ → Bool
  | none, none => false
  | none, some _ => true
  | some _, none => false
  | some a, some b => decide (a < b)

/-- Result entry of an `Annotate` call, embedded from the header: the span
field defaults to the invalid sentinel and the classification to the empty
list. -/
structure AnnotatedSpan where
  span : CodepointSpan := (kInvalidIndex, kInvalidIndex)
  classification : List (String × ℚ) := []
  deriving DecidableEq

/-- Order on annotated spans by the start index of their span. -/
def annLeP (a b : AnnotatedSpan) : Prop := a.span.1 ≤ b.span.1

instance : DecidableRel annLeP := fun a b => by unfold annLeP; infer_instance

instance : IsTotal AnnotatedSpan annLeP := ⟨by intro a b; unfold annLeP; omega⟩

instance : IsTrans AnnotatedSpan annLeP := ⟨by intro a b c; unfold annLeP; omega⟩

/-- Modelled from the spec: the model container.  Loading (file descriptor,
path or memory buffer forms) is absorbed into the `initialized` flag; the
external collaborators (tokenizer of the feature processor, the selection
network's per-span score, compiled regex hint patterns, and the sharing
network's ranked output) are carried as opaque capabilities, as the
specification treats them. -/
structure TextClassificationModel where
  initialized : Bool
  tokenize : List Char → List CodepointSpan
  selScore : List Char → CodepointSpan → ℚ
  selectionWindow : TokenSpan
  regexPatterns : List (String × (List Char → Bool))
  netClassify : List Char → CodepointSpan → List (String × ℚ)

/-- Whether a token span covers the click position (contains the click's
first index). -/
def coversClick (t click : CodepointSpan) : Bool :=
  decide (t.1 ≤ click.1) && decide (click.1 < t.2)

/-- Capability contract of the external tokenizer: every produced token
span is a valid span of its text. -/
def TokenizerWF (m : TextClassificationModel) : Prop :=
  ∀ context sp, sp ∈ m.tokenize context → validSpan context sp

namespace TextClassificationModel

/-- Modelled from the spec: `Chunk`.  With the unbounded sentinel window
the whole context is tokenized and every non-whitespace token span becomes
a candidate; otherwise the token covering the click is located, the window
is expanded by `relative_click_span` tokens left and right, and candidate
spans are anchored at the token boundaries inside the window.  Candidates
are returned sorted by position; no covering token yields no candidates. -/
def Chunk (m : TextClassificationModel) (context : List Char)
    (click_span : CodepointSpan) (relative_click_span : TokenSpan) :
    List CodepointSpan :=
  let tokens := m.tokenize context
  if relative_click_span = (kInvalidIndex, kInvalidIndex) then
    sortSpans (tokens.filter (fun t => !(spanIsWhitespace context t)))
  else
    match tokens.findIdx? (fun t => coversClick t click_span) with
    | none => []
    | some i =>
      let lo := i - relative_click_span.1.toNat
      let window := (tokens.drop lo).take (i - lo + relative_click_span.2.toNat + 1)
      sortSpans (window.flatMap (fun a =>
        window.filterMap (fun b =>
          if a.1 ≤ b.2 then some ((a.1, b.2) : CodepointSpan) else none)))

end TextClassificationModel

/-- Keep the better-scoring of the current best and a new candidate; a
strictly larger score replaces the current best. -/
def chooseBetter (score : CodepointSpan → ℚ) (b : CodepointSpan × ℚ)
    (x : CodepointSpan) : CodepointSpan × ℚ :=
  if b.2 < score x then (x, score x) else b

/-- The candidate of maximum score together with that score, `none` on an
empty candidate list. -/
def argmaxBy (score : CodepointSpan → ℚ) :
    List CodepointSpan → Option (CodepointSpan × ℚ)
  | [] => none
  | x :: xs => some (xs.foldl (chooseBetter score) (x, score x))

/-- Modelled from the spec: the fixed combination rule of the two
re-anchored selection runs: agreement returns the common span, otherwise
the higher-scoring run wins, and on an exact score tie the wider span is
preferred. -/
def combineRuns (r1 r2 : CodepointSpan × Option ℚ) : CodepointSpan :=
  if r1.1 = r2.1 then r1.1
  else if scoreLt r1.2 r2.2 then r2.1
  else if scoreLt r2.2 r1.2 then r1.1
  else if spanWidth r1.1 < spanWidth r2.1 then r2.1
  else r1.1

namespace TextClassificationModel

/-- Modelled from the spec: `SuggestSelectionInternal` chunks around the
click with the configured default token window, scores every candidate
with the selection network and returns the best candidate with its score;
an empty candidate set yields the click indices with the `-infinity`
sentinel score (`none`). -/
def SuggestSelectionInternal (m : TextClassificationModel) (context : List Char)
    (click_indices : CodepointSpan) : CodepointSpan × Option ℚ :=
  match argmaxBy (m.selScore context) (m.Chunk context click_indices m.selectionWindow) with
  | none => (click_indices, none)
  | some r => (r.1, some r.2)

/-- Modelled from the spec: `SuggestSelectionSymmetrical` runs the internal
suggestion from the original click, re-runs it anchored at the first
result, and combines the two runs with the fixed rule `combineRuns`. -/
def SuggestSelectionSymmetrical (m : TextClassificationModel) (context : List Char)
    (click_indices : CodepointSpan) : CodepointSpan :=
  combineRuns (m.SuggestSelectionInternal context click_indices)
    (m.SuggestSelectionInternal context
      (m.SuggestSelectionInternal context click_indices).1)

/-- Modelled from the spec: the public `SuggestSelection` short-circuits to
the caller's click indices when the container is not initialized or the
click indices are invalid, and otherwise post-processes the symmetrical
suggestion with bracket stripping. -/
def SuggestSelection (m : TextClassificationModel) (context : List Char)
    (click_indices : CodepointSpan) : CodepointSpan :=
  if m.initialized = true ∧ validSpan context click_indices then
    StripUnpairedBrackets context (m.SuggestSelectionSymmetrical context click_indices)
  else click_indices

/-- Modelled from the spec: `ClassifyText` returns an empty result for a
not-initialized container or invalid span; the `IS_URL` hint (bit 0) then
the `IS_EMAIL` hint (bit 1) short-circuit to a single-entry result with
the header's hint collection names and score one; otherwise the first
matching compiled regex pattern wins, and failing that the sharing
network's ranked output is returned. -/
def ClassifyText (m : TextClassificationModel) (context : List Char)
    (click_indices : CodepointSpan) (input_flags : Nat) : List (String × ℚ) :=
  if m.initialized = true ∧ validSpan context click_indices then
    if input_flags.testBit 0 then [("url", (1 : ℚ))]
    else if input_flags.testBit 1 then [("email", (1 : ℚ))]
    else
      match m.regexPatterns.find? (fun p => p.2 (spanText context click_indices)) with
      | some p => [(p.1, (1 : ℚ))]
      | none => m.netClassify context click_indices
  else []

end TextClassificationModel

/-- Maximal non-whitespace runs of the context, accumulated left to right;
`start?` carries the start index of a run in progress. -/
def runsAux : List Char → Int → Option Int → List CodepointSpan
  | [], _, none => []
  | [], i, some s => [(s, i)]
  | c :: cs, i, none =>
    if c.isWhitespace then runsAux cs (i + 1) none
    else runsAux cs (i + 1) (some i)
  | c :: cs, i, some s =>
    if c.isWhitespace then (s, i) :: runsAux cs (i + 1) none
    else runsAux cs (i + 1) (some s)

/-- The maximal non-whitespace runs of a context, by codepoint. -/
def nonWsRuns (context : List Char) : List CodepointSpan :=
  runsAux context 0 none

namespace TextClassificationModel

/-- Modelled from the spec: `Annotate` segments the context into maximal
non-whitespace runs, refines each run through the selection engine with
the run's midpoint as the click anchor, classifies the refined span with
no input flags, drops pairs with an empty classification, and returns the
rest sorted by span start; a not-initialized container yields the empty
sequence. -/
def Annotate (m : TextClassificationModel) (context : List Char) :
    List AnnotatedSpan :=
  if m.initialized = true then
    let spans := (nonWsRuns context).map (fun r =>
      let mid := (r.1 + r.2) / 2
      let refined := m.SuggestSelection context (mid, mid + 1)
      AnnotatedSpan.mk refined (m.ClassifyText context refined 0))
    List.insertionSort annLeP (spans.filter (fun a => !a.classification.isEmpty))
  else []

end TextClassificationModel

/-- Whether a span covers codepoint index `i`. -/
def coversIdx (sp : CodepointSpan) (i : Nat) : Prop :=
  sp.1 ≤ (i : Int) ∧ (i : Int) < sp.2

instance (sp : CodepointSpan) (i : Nat) : Decidable (coversIdx sp i) := by
  unfold coversIdx; infer_instance

/-- Every codepoint of the context left uncovered by all the given spans is
whitespace. -/
def gapsOnlyWhitespace (context : List Char) (spans : List CodepointSpan) : Prop :=
  ∀ i ∈ List.range context.length,
    (∀ sp ∈ spans, ¬ coversIdx sp i) → (context.getD i ' ').isWhitespace = true

/-- The annotation contract exactly as the specification words it: results
sorted by span start, no empty classification, no whitespace-only span
(every returned span covers some non-whitespace codepoint), and the gaps
between the returned spans consist only of whitespace. -/
def AnnotateSpecClaim (m : TextClassificationModel) (context : List Char) : Prop :=
  List.Pairwise annLeP (m.Annotate context)
  ∧ (∀ a ∈ m.Annotate context, a.classification ≠ [])
  ∧ (∀ a ∈ m.Annotate context,
      ∃ i ∈ List.range context.length,
        coversIdx a.span i ∧ (context.getD i ' ').isWhitespace = false)
  ∧ gapsOnlyWhitespace context ((m.Annotate context).map AnnotatedSpan.span)

/-- A tokenizer producing no tokens at all. -/
def emptyTokenizer : List Char → List CodepointSpan := fun _ => []

/-- A container whose load failed: not initialized, all capabilities inert. -/
def modelUninit : TextClassificationModel :=
  { initialized := false
    tokenize := emptyTokenizer
    selScore := fun _ _ => 0
    selectionWindow := (0, 0)
    regexPatterns := []
    netClassify := fun _ _ => [] }

/-- An initialized container with an empty tokenizer. -/
def modelBasic : TextClassificationModel :=
  { modelUninit with initialized := true }

/-- An initialized container whose tokenizer always reports the two
single-codepoint tokens `(0,1)` and `(1,2)`. -/
def modelTwoTok : TextClassificationModel :=
  { modelBasic with tokenize := fun _ => [(0, 1), (1, 2)] }

/-- An initialized container with an empty tokenizer and a regex pattern
matching every text under the collection name "other". -/
def modelRegexAll : TextClassificationModel :=
  { modelBasic with regexPatterns := [("other", fun _ => true)] }

/-- A two-codepoint context consisting of two closing parentheses. -/
def ctxTwoClose : List Char := [')', ')']

/-- A one-codepoint context consisting of a single closing parenthesis. -/
def ctxParen : List Char := [')']

end libtextclassifier

namespace libtextclassifier

theorem scoreLt_irrefl (s : Option ℚ) : scoreLt s s = false := by
  cases s <;> simp [scoreLt]

theorem scoreLt_asymm {a b : Option ℚ} (h1 : scoreLt a b = true)
    (h2 : scoreLt b a = true) : False := by
  cases a <;> cases b <;> simp [scoreLt] at h1 h2
  exact absurd h2 (not_lt.mpr (le_of_lt h1))

theorem strip_le (context : List Char) (sp : CodepointSpan) :
    sp.1 ≤ (StripUnpairedBrackets context sp).1
    ∧ (StripUnpairedBrackets context sp).2 ≤ sp.2
    ∧ (sp.1 ≤ sp.2 →
        (StripUnpairedBrackets context sp).1 ≤ (StripUnpairedBrackets context sp).2) := by
  simp only [StripUnpairedBrackets]
  split_ifs with h1 h2 h2 <;> simp <;> omega

theorem strip_valid (context : List Char) (sp : CodepointSpan)
    (h : validSpan context sp) : validSpan context (StripUnpairedBrackets context sp) := by
  obtain ⟨ha, hb, hc⟩ := h
  obtain ⟨h1, h2, h3⟩ := strip_le context sp
  exact ⟨le_trans ha h1, h3 hb, le_trans h2 hc⟩

theorem foldl_chooseBetter_spec (score : CodepointSpan → ℚ) :
    ∀ (xs : List CodepointSpan) (b : CodepointSpan × ℚ), b.2 = score b.1 →
      (xs.foldl (chooseBetter score) b).2 = score (xs.foldl (chooseBetter score) b).1
      ∧ ((xs.foldl (chooseBetter score) b) = b ∨ (xs.foldl (chooseBetter score) b).1 ∈ xs)
      ∧ b.2 ≤ (xs.foldl (chooseBetter score) b).2
      ∧ ∀ y ∈ xs, score y ≤ (xs.foldl (chooseBetter score) b).2 := by
  intro xs
  induction xs with
  | nil => intro b hb; simp [hb]
  | cons x xs ih =>
    intro b hb
    simp only [List.foldl_cons]
    have hb' : (chooseBetter score b x).2 = score (chooseBetter score b x).1 := by
      unfold chooseBetter; split <;> simp [hb]
    have hbb : b.2 ≤ (chooseBetter score b x).2 := by
      unfold chooseBetter; split
      · exact le_of_lt (by assumption)
      · exact le_refl _
    have hbx : score x ≤ (chooseBetter score b x).2 := by
      unfold chooseBetter; split
      · exact le_refl _
      · exact le_of_not_lt (by assumption)
    have hcases : (chooseBetter score b x) = b ∨ (chooseBetter score b x).1 = x := by
      unfold chooseBetter; split <;> simp
    obtain ⟨ih1, ih2, ih3, ih4⟩ := ih (chooseBetter score b x) hb'
    refine ⟨ih1, ?_, le_trans hbb ih3, ?_⟩
    · rcases ih2 with h | h
      · rcases hcases with h2 | h2
        · left; rw [h, h2]
        · right; rw [h]; exact List.mem_cons.mpr (Or.inl h2)
      · right; exact List.mem_cons.mpr (Or.inr h)
    · intro y hy
      rcases List.mem_cons.mp hy with rfl | hy
      · exact le_trans hbx ih3
      · exact ih4 y hy

theorem argmaxBy_eq_none (score : CodepointSpan → ℚ) (l : List CodepointSpan) :
    argmaxBy score l = none ↔ l = [] := by
  cases l <;> simp [argmaxBy]

theorem argmaxBy_spec (score : CodepointSpan → ℚ) (l : List CodepointSpan)
    (r : CodepointSpan × ℚ) (h : argmaxBy score l = some r) :
    r.1 ∈ l ∧ r.2 = score r.1 ∧ ∀ y ∈ l, score y ≤ r.2 := by
  cases l with
  | nil => simp [argmaxBy] at h
  | cons x xs =>
    simp only [argmaxBy, Option.some.injEq] at h
    obtain ⟨h1, h2, h3, h4⟩ := foldl_chooseBetter_spec score xs (x, score x) rfl
    subst h
    refine ⟨?_, h1, ?_⟩
    · rcases h2 with h | h
      · rw [h]; exact List.mem_cons_self x xs
      · exact List.mem_cons.mpr (Or.inr h)
    · intro y hy
      rcases List.mem_cons.mp hy with rfl | hy
      · exact h3
      · exact h4 y hy

theorem combineRuns_spec (r1 r2 : CodepointSpan × Option ℚ) :
    (combineRuns r1 r2 = r1.1 ∨ combineRuns r1 r2 = r2.1)
    ∧ (r1.1 = r2.1 → combineRuns r1 r2 = r1.1)
    ∧ (scoreLt r1.2 r2.2 = true → combineRuns r1 r2 = r2.1)
    ∧ (r1.1 ≠ r2.1 → scoreLt r2.2 r1.2 = true → combineRuns r1 r2 = r1.1)
    ∧ (r1.2 = r2.2 → spanWidth r1.1 < spanWidth r2.1 → combineRuns r1 r2 = r2.1)
    ∧ (r1.2 = r2.2 → spanWidth r2.1 ≤ spanWidth r1.1 → combineRuns r1 r2 = r1.1) := by
  unfold combineRuns
  split_ifs with h1 h2 h3 h4
  · exact ⟨Or.inl rfl, fun _ => rfl, fun _ => h1 ▸ rfl, fun hne _ => absurd h1 hne,
      fun _ hw => absurd hw (by rw [h1]; exact lt_irrefl _), fun _ _ => rfl⟩
  · refine ⟨Or.inr rfl, fun h => absurd h h1, fun _ => rfl,
      fun _ h => absurd (scoreLt_asymm h2 h) id, fun _ _ => rfl, fun htie _ => ?_⟩
    rw [htie] at h2
    exact absurd h2 (by rw [scoreLt_irrefl]; simp)
  · refine ⟨Or.inl rfl, fun _ => rfl, fun h => absurd h h2, fun _ _ => rfl,
      fun htie _ => ?_, fun _ _ => rfl⟩
    rw [htie] at h3
    exact absurd h3 (by rw [scoreLt_irrefl]; simp)
  · refine ⟨Or.inr rfl, fun h => by rw [h], fun h => absurd h h2,
      fun _ h => absurd h h3, fun _ _ => rfl, fun _ hw => absurd h4 (not_lt.mpr hw)⟩
  · refine ⟨Or.inl rfl, fun _ => rfl, fun h => absurd h h2, fun _ _ => rfl,
      fun _ hw => absurd hw h4, fun _ _ => rfl⟩

end libtextclassifier

namespace libtextclassifier

theorem chunk_mem_valid (m : TextClassificationModel) (hwf : TokenizerWF m)
    (context : List Char) (click : CodepointSpan) (rel : TokenSpan) :
    ∀ c ∈ m.Chunk context click rel, validSpan context c := by
  intro c hc
  simp only [TextClassificationModel.Chunk] at hc
  split_ifs at hc with hrel
  · simp only [sortSpans, List.mem_insertionSort] at hc
    exact hwf context c (List.mem_filter.mp hc).1
  · cases hfind : (m.tokenize context).findIdx? (fun t => coversClick t click) with
    | none => rw [hfind] at hc; simp at hc
    | some i =>
      rw [hfind] at hc
      simp only [sortSpans, List.mem_insertionSort, List.mem_flatMap] at hc
      obtain ⟨a, ha, hc⟩ := hc
      rw [List.mem_filterMap] at hc
      obtain ⟨b, hb, hab⟩ := hc
      have ha2 : a ∈ m.tokenize context :=
        List.drop_subset _ _ (List.take_subset _ _ ha)
      have hb2 : b ∈ m.tokenize context :=
        List.drop_subset _ _ (List.take_subset _ _ hb)
      by_cases hle : a.1 ≤ b.2
      · rw [if_pos hle] at hab
        simp only [Option.some.injEq] at hab
        subst hab
        obtain ⟨hA1, _, _⟩ := hwf context a ha2
        obtain ⟨_, _, hB3⟩ := hwf context b hb2
        exact ⟨hA1, hle, hB3⟩
      · rw [if_neg hle] at hab
        cases hab

theorem ssi_fst_mem_or_click (m : TextClassificationModel) (context : List Char)
    (click : CodepointSpan) :
    (m.SuggestSelectionInternal context click).1 ∈ m.Chunk context click m.selectionWindow
    ∨ (m.SuggestSelectionInternal context click).1 = click := by
  simp only [TextClassificationModel.SuggestSelectionInternal]
  cases ha : argmaxBy (m.selScore context) (m.Chunk context click m.selectionWindow) with
  | none => right; rfl
  | some r => left; exact (argmaxBy_spec _ _ r ha).1

theorem ssi_fst_valid (m : TextClassificationModel) (hwf : TokenizerWF m)
    (context : List Char) (click : CodepointSpan) (hv : validSpan context click) :
    validSpan context (m.SuggestSelectionInternal context click).1 := by
  rcases ssi_fst_mem_or_click m context click with h | h
  · exact chunk_mem_valid m hwf context click m.selectionWindow _ h
  · rw [h]; exact hv

theorem sss_cases (m : TextClassificationModel) (context : List Char)
    (click : CodepointSpan) :
    m.SuggestSelectionSymmetrical context click
      = (m.SuggestSelectionInternal context click).1
    ∨ m.SuggestSelectionSymmetrical context click
      = (m.SuggestSelectionInternal context
          (m.SuggestSelectionInternal context click).1).1 := by
  simp only [TextClassificationModel.SuggestSelectionSymmetrical]
  exact (combineRuns_spec _ _).1

theorem sss_valid (m : TextClassificationModel) (hwf : TokenizerWF m)
    (context : List Char) (click : CodepointSpan) (hv : validSpan context click) :
    validSpan context (m.SuggestSelectionSymmetrical context click) := by
  rcases sss_cases m context click with h | h <;> rw [h]
  · exact ssi_fst_valid m hwf context click hv
  · exact ssi_fst_valid m hwf context _ (ssi_fst_valid m hwf context click hv)

end libtextclassifier

namespace libtextclassifier

/-- C1: a not-initialized container (e.g. after loading an empty or garbage
buffer) degrades every public inference method to a no-op: for every
context, span and flags, `SuggestSelection` returns the click span
unchanged, and `ClassifyText` and `Annotate` return empty results; no
error is propagated. -/
theorem uninitialized_noop (m : TextClassificationModel) (context : List Char)
    (click : CodepointSpan) (flags : Nat) (h : m.initialized = false) :
    m.SuggestSelection context click = click
    ∧ m.ClassifyText context click flags = []
    ∧ m.Annotate context = [] := by
  refine ⟨?_, ?_, ?_⟩ <;>
    simp [TextClassificationModel.SuggestSelection,
      TextClassificationModel.ClassifyText, TextClassificationModel.Annotate, h]

/-- Witness for C1 at a concrete not-initialized container. -/
theorem uninitialized_noop_witness :
    modelUninit.SuggestSelection [] (0, 0) = (0, 0)
    ∧ modelUninit.ClassifyText [] (0, 0) 0 = []
    ∧ modelUninit.Annotate [] = [] :=
  uninitialized_noop modelUninit [] (0, 0) 0 rfl

/-- C2 counterexample: fed the invalid sentinel span, `SuggestSelection`
echoes it unchanged, so the returned span violates
`0 <= first <= last <= codepointLength(context)` even on an initialized
container; the claim's "every input click span" is too strong. -/
theorem span_validity_cex :
    modelBasic.SuggestSelection [] (kInvalidIndex, kInvalidIndex)
      = (kInvalidIndex, kInvalidIndex)
    ∧ ¬ validSpan []
        (modelBasic.SuggestSelection [] (kInvalidIndex, kInvalidIndex)) := by
  constructor <;> decide

/-- C2 (amended): for every context and every valid input click span,
under the tokenizer capability contract, the span returned by
`SuggestSelection` satisfies `0 <= first <= last <= codepointLength`. -/
theorem suggestSelection_valid (m : TextClassificationModel) (context : List Char)
    (click : CodepointSpan) (hwf : TokenizerWF m) (hv : validSpan context click) :
    validSpan context (m.SuggestSelection context click) := by
  unfold TextClassificationModel.SuggestSelection
  split_ifs with h
  · exact strip_valid context _ (sss_valid m hwf context click hv)
  · exact hv

/-- Witness for C2 (amended) at a concrete container and input. -/
theorem suggestSelection_valid_witness :
    validSpan [] (modelBasic.SuggestSelection [] (0, 0)) :=
  suggestSelection_valid modelBasic [] (0, 0)
    (fun ctx sp h => by simp [modelBasic, modelUninit, emptyTokenizer] at h)
    (by decide)

/-- C3 counterexample: on the context `))` with span `(0, 2)` the function
strips the leading unpaired closing bracket once, but the result `(1, 2)`
again starts with an unpaired closing bracket, refuting "the result never
starts with an unmatched closing bracket". -/
theorem strip_claim_cex :
    StripUnpairedBrackets ctxTwoClose (0, 2) = (1, 2)
    ∧ stripStartB ctxTwoClose (StripUnpairedBrackets ctxTwoClose (0, 2)) = true := by
  constructor <;> decide

/-- C3 (amended): `StripUnpairedBrackets` shrinks the span by one codepoint
on each side whose edge codepoint is an unpaired bracket (closing at the
start, opening at the end, pair absent from the span), judged on the input
span; it never widens the input span and, for an input with
`first <= last`, never produces an invalid span — a shrink that would
invert the span leaves that side unchanged.  (A single application may
still leave an unpaired bracket at an edge when the input has consecutive
unpaired brackets.) -/
theorem strip_amended (context : List Char) (sp : CodepointSpan) :
    (sp.1 ≤ (StripUnpairedBrackets context sp).1
      ∧ (StripUnpairedBrackets context sp).2 ≤ sp.2)
    ∧ (sp.1 ≤ sp.2 →
        (StripUnpairedBrackets context sp).1 ≤ (StripUnpairedBrackets context sp).2)
    ∧ (stripStartB context sp = true → sp.1 + 1 ≤ sp.2 →
        (StripUnpairedBrackets context sp).1 = sp.1 + 1)
    ∧ (stripStartB context sp = false →
        (StripUnpairedBrackets context sp).1 = sp.1)
    ∧ (stripEndB context sp = true →
        (StripUnpairedBrackets context sp).1 ≤ sp.2 - 1 →
        (StripUnpairedBrackets context sp).2 = sp.2 - 1)
    ∧ (stripEndB context sp = false →
        (StripUnpairedBrackets context sp).2 = sp.2) := by
  simp only [StripUnpairedBrackets]
  split_ifs with h1 h2 h2
  · obtain ⟨h1a, h1b⟩ := h1
    obtain ⟨h2a, h2b⟩ := h2
    refine ⟨⟨by omega, by omega⟩, fun _ => by omega, fun _ _ => rfl,
      fun hb => ?_, fun _ _ => rfl, fun hb => ?_⟩
    · rw [hb] at h1a; cases h1a
    · rw [hb] at h2a; cases h2a
  · obtain ⟨h1a, h1b⟩ := h1
    refine ⟨⟨by omega, by omega⟩, fun _ => by omega, fun _ _ => rfl,
      fun hb => ?_, fun he hle => absurd ⟨he, hle⟩ h2, fun _ => rfl⟩
    · rw [hb] at h1a; cases h1a
  · obtain ⟨h2a, h2b⟩ := h2
    refine ⟨⟨by omega, by omega⟩, fun _ => by omega,
      fun hb hle => absurd ⟨hb, hle⟩ h1, fun _ => rfl, fun _ _ => rfl,
      fun hb => ?_⟩
    · rw [hb] at h2a; cases h2a
  · refine ⟨⟨by omega, by omega⟩, fun h => h,
      fun hb hle => absurd ⟨hb, hle⟩ h1, fun _ => rfl,
      fun he hle => absurd ⟨he, hle⟩ h2, fun _ => rfl⟩

/-- Witness for C3 (amended): the start side of `)a` is an unpaired
closing bracket and is stripped. -/
theorem strip_amended_witness :
    (StripUnpairedBrackets [')', 'a'] (0, 2)).1 = 0 + 1 :=
  (strip_amended [')', 'a'] (0, 2)).2.2.1 (by decide) (by decide)

end libtextclassifier

namespace libtextclassifier

/-- C4 counterexample: with both hint bits set (`IS_URL | IS_EMAIL = 3`) an
initialized container returns the url result, not the email result, so
"input_flags includes IS_EMAIL yields [(email, 1.0)]" is too strong; and a
not-initialized container returns an empty result even with `IS_URL` set,
so the url short-circuit also needs the container to be initialized. -/
theorem hint_precedence_cex :
    (Nat.testBit 3 1 = true
      ∧ modelBasic.ClassifyText [] (0, 0) 3 ≠ [("email", (1 : ℚ))])
    ∧ (Nat.testBit 1 0 = true ∧ validSpan [] ((0 : Int), (0 : Int))
      ∧ modelUninit.ClassifyText [] (0, 0) 1 ≠ [("url", (1 : ℚ))]) := by
  refine ⟨⟨?_, ?_⟩, ?_, ?_, ?_⟩ <;> decide

/-- C4 (amended): on an initialized container with a valid span, if
`input_flags` has the `IS_URL` bit the result is exactly `[(url, 1.0)]`
regardless of context, bypassing the regex and network paths; if it has
the `IS_EMAIL` bit and not the `IS_URL` bit, the result is exactly
`[(email, 1.0)]` — `IS_URL` takes precedence when both are set. -/
theorem classify_hints (m : TextClassificationModel) (context : List Char)
    (click : CodepointSpan) (flags : Nat) (hi : m.initialized = true)
    (hv : validSpan context click) :
    (flags.testBit 0 = true →
      m.ClassifyText context click flags = [("url", (1 : ℚ))])
    ∧ (flags.testBit 0 = false → flags.testBit 1 = true →
      m.ClassifyText context click flags = [("email", (1 : ℚ))]) := by
  constructor
  · intro h
    simp [TextClassificationModel.ClassifyText, hi, hv, h]
  · intro h0 h1
    simp [TextClassificationModel.ClassifyText, hi, hv, h0, h1]

/-- Witness for C4 (amended) at a concrete initialized container. -/
theorem classify_hints_witness :
    modelBasic.ClassifyText [] (0, 0) 1 = [("url", (1 : ℚ))] :=
  (classify_hints modelBasic [] (0, 0) 1 rfl (by decide)).1 (by decide)

/-- C5: `SuggestSelectionSymmetrical` combines its two re-anchored runs of
`SuggestSelectionInternal` by the fixed deterministic rule: agreement
returns the common span; otherwise the span of the strictly
higher-scoring run is returned; on an exact score tie the wider span is
returned (the first run's span when the widths also tie). -/
theorem symmetrical_combine (m : TextClassificationModel) (context : List Char)
    (click : CodepointSpan) (r1 r2 : CodepointSpan × Option ℚ)
    (h1 : r1 = m.SuggestSelectionInternal context click)
    (h2 : r2 = m.SuggestSelectionInternal context r1.1) :
    (m.SuggestSelectionSymmetrical context click = r1.1
      ∨ m.SuggestSelectionSymmetrical context click = r2.1)
    ∧ (r1.1 = r2.1 → m.SuggestSelectionSymmetrical context click = r1.1)
    ∧ (scoreLt r1.2 r2.2 = true →
        m.SuggestSelectionSymmetrical context click = r2.1)
    ∧ (r1.1 ≠ r2.1 → scoreLt r2.2 r1.2 = true →
        m.SuggestSelectionSymmetrical context click = r1.1)
    ∧ (r1.2 = r2.2 → spanWidth r1.1 < spanWidth r2.1 →
        m.SuggestSelectionSymmetrical context click = r2.1)
    ∧ (r1.2 = r2.2 → spanWidth r2.1 ≤ spanWidth r1.1 →
        m.SuggestSelectionSymmetrical context click = r1.1) := by
  subst h2
  subst h1
  simp only [TextClassificationModel.SuggestSelectionSymmetrical]
  exact combineRuns_spec _ _

/-- Witness for C5: at a concrete container whose two runs agree, the
agreed span is returned. -/
theorem symmetrical_combine_witness :
    modelBasic.SuggestSelectionSymmetrical [] (0, 0) = ((0, 0) : CodepointSpan) :=
  (symmetrical_combine modelBasic [] (0, 0) ((0, 0), none) ((0, 0), none)
    (by decide) (by decide)).2.1 rfl

/-- C6: `SuggestSelectionInternal` returns the candidate span of maximum
score among the candidates produced by `Chunk` (with its own score
attached), and on an empty candidate set returns the click indices with
the `-infinity` sentinel score (`none`) rather than failing. -/
theorem selection_internal_max (m : TextClassificationModel)
    (context : List Char) (click : CodepointSpan) :
    (m.Chunk context click m.selectionWindow = [] →
      m.SuggestSelectionInternal context click = (click, none))
    ∧ (m.Chunk context click m.selectionWindow ≠ [] →
      (m.SuggestSelectionInternal context click).1
          ∈ m.Chunk context click m.selectionWindow
      ∧ (m.SuggestSelectionInternal context click).2
          = some (m.selScore context (m.SuggestSelectionInternal context click).1))
    ∧ (∀ c ∈ m.Chunk context click m.selectionWindow,
        m.selScore context c
          ≤ m.selScore context (m.SuggestSelectionInternal context click).1) := by
  refine ⟨?_, ?_, ?_⟩
  · intro h
    simp only [TextClassificationModel.SuggestSelectionInternal, h]
    rfl
  · intro hne
    simp only [TextClassificationModel.SuggestSelectionInternal]
    cases ha : argmaxBy (m.selScore context) (m.Chunk context click m.selectionWindow) with
    | none => exact absurd ((argmaxBy_eq_none _ _).mp ha) hne
    | some r =>
      obtain ⟨hm, hs, _⟩ := argmaxBy_spec _ _ r ha
      exact ⟨hm, congrArg some hs⟩
  · intro c hc
    simp only [TextClassificationModel.SuggestSelectionInternal]
    cases ha : argmaxBy (m.selScore context) (m.Chunk context click m.selectionWindow) with
    | none =>
      rw [(argmaxBy_eq_none _ _).mp ha] at hc
      cases hc
    | some r =>
      obtain ⟨_, hs, hmax⟩ := argmaxBy_spec _ _ r ha
      calc m.selScore context c ≤ r.2 := hmax c hc
        _ = m.selScore context r.1 := hs

/-- Witness for C6: at a concrete container with a nonempty candidate set,
the returned span is one of the candidates. -/
theorem selection_internal_max_witness :
    (modelTwoTok.SuggestSelectionInternal ['a', 'b'] (0, 1)).1
      ∈ modelTwoTok.Chunk ['a', 'b'] (0, 1) modelTwoTok.selectionWindow :=
  ((selection_internal_max modelTwoTok ['a', 'b'] (0, 1)).2.1 (by decide)).1

end libtextclassifier

namespace libtextclassifier

/-- C7: `Chunk` always returns candidates sorted by their position in the
context; with the unbounded sentinel window the result ignores the click
span and consists exactly of the non-whitespace token spans of the whole
tokenized context; and on an empty context (under the tokenizer capability
contract for the empty text) the result is the empty sequence, never a
failure. -/
theorem chunk_props (m : TextClassificationModel) (context : List Char)
    (click : CodepointSpan) (rel : TokenSpan) :
    List.Pairwise spanLeP (m.Chunk context click rel)
    ∧ (rel = (kInvalidIndex, kInvalidIndex) →
        (∀ click2, m.Chunk context click rel = m.Chunk context click2 rel)
        ∧ (∀ t, t ∈ m.Chunk context click rel ↔
            t ∈ m.tokenize context ∧ spanIsWhitespace context t = false))
    ∧ ((∀ sp ∈ m.tokenize [], validSpan [] sp) → m.Chunk [] click rel = []) := by
  refine ⟨?_, fun hrel => ⟨?_, ?_⟩, ?_⟩
  · simp only [TextClassificationModel.Chunk]
    split_ifs with h
    · exact List.sorted_insertionSort spanLeP _
    · cases hfind : (m.tokenize context).findIdx? (fun t => coversClick t click) with
      | none => exact List.Pairwise.nil
      | some i => exact List.sorted_insertionSort spanLeP _
  · intro click2
    simp [TextClassificationModel.Chunk, hrel]
  · intro t
    simp [TextClassificationModel.Chunk, hrel, sortSpans,
      List.mem_insertionSort, List.mem_filter]
  · intro hwf0
    by_cases hrel2 : rel = (kInvalidIndex, kInvalidIndex)
    · simp only [TextClassificationModel.Chunk, hrel2, if_pos]
      have hf : (m.tokenize []).filter (fun t => !(spanIsWhitespace [] t)) = [] := by
        rw [List.filter_eq_nil_iff]
        intro t _
        simp [spanIsWhitespace, spanText]
      rw [hf]
      rfl
    · simp only [TextClassificationModel.Chunk, if_neg hrel2]
      have hnone : (m.tokenize []).findIdx? (fun t => coversClick t click) = none := by
        rw [List.findIdx?_eq_none_iff]
        intro t ht
        obtain ⟨h1, h2, h3⟩ := hwf0 t ht
        have h4 : t.2 ≤ 0 := by simpa using h3
        simp only [coversClick, Bool.and_eq_false_iff, decide_eq_false_iff_not, not_lt, not_le]
        omega
      rw [hnone]

/-- Witness for C7: the empty-context conjunct at a concrete container. -/
theorem chunk_props_witness : modelBasic.Chunk [] (0, 0) (0, 0) = [] :=
  (chunk_props modelBasic [] (0, 0) (0, 0)).2.2
    (fun sp h => by simp [modelBasic, modelUninit, emptyTokenizer] at h)

/-- C8 counterexample: on the context `)` the single non-whitespace run is
refined to the click span and bracket-stripped to the empty span `(1, 1)`,
which the always-matching regex classifies as "other"; the returned span
covers no non-whitespace codepoint and the uncovered codepoint `)` is not
whitespace, refuting the no-whitespace-only-span and coverage conjuncts of
the annotation contract. -/
theorem annotate_claim_cex : ¬ AnnotateSpecClaim modelRegexAll ctxParen := by
  intro h
  have hmem : (AnnotatedSpan.mk (1, 1) [("other", (1 : ℚ))])
      ∈ modelRegexAll.Annotate ctxParen := by decide
  exact absurd (h.2.2.1 _ hmem) (by decide)

/-- C8 (amended): for every container and context, the sequence returned
by `Annotate` is sorted by `span.first` and contains no pair with an empty
classification; coverage of all non-whitespace codepoints and absence of
degenerate spans are not guaranteed, since selection refinement and
bracket stripping may shrink a run's span (dropping pairs whose
classification is empty can also leave non-whitespace uncovered). -/
theorem annotate_sorted_classified (m : TextClassificationModel)
    (context : List Char) :
    List.Pairwise annLeP (m.Annotate context)
    ∧ ∀ a ∈ m.Annotate context, a.classification ≠ [] := by
  simp only [TextClassificationModel.Annotate]
  split_ifs with h
  · constructor
    · exact List.sorted_insertionSort annLeP _
    · intro a ha
      rw [List.mem_insertionSort, List.mem_filter] at ha
      have h2 := ha.2
      simp only [Bool.not_eq_true', List.isEmpty_eq_false] at h2
      exact h2
  · simp

/-- Witness for C8 (amended): the concrete annotation above has a
non-empty classification. -/
theorem annotate_sorted_classified_witness :
    (AnnotatedSpan.mk (1, 1) [("other", (1 : ℚ))]).classification ≠ [] :=
  (annotate_sorted_classified modelRegexAll ctxParen).2 _ (by decide)

/-- C9 counterexample: on the context `))` with click `(0, 1)`, the
suggestion is `(1, 1)` (the covering token stripped of its unpaired
bracket), but feeding `(1, 1)` back re-anchors on the second token and
yields `(2, 2)`, so `SuggestSelection` is not idempotent. -/
theorem idempotence_cex :
    modelTwoTok.SuggestSelection ctxTwoClose
        (modelTwoTok.SuggestSelection ctxTwoClose (0, 1))
      ≠ modelTwoTok.SuggestSelection ctxTwoClose (0, 1) := by
  decide

/-- C9 (amended): idempotence holds on the echo paths — when the container
is not initialized or the click span is invalid, `SuggestSelection`
returns its input, so feeding the result back yields the same span; for an
initialized container on a valid span, re-feeding a suggestion may move
it again (see the counterexample). -/
theorem suggestSelection_echo_idem (m : TextClassificationModel)
    (context : List Char) (click : CodepointSpan)
    (h : m.initialized = false ∨ ¬ validSpan context click) :
    m.SuggestSelection context (m.SuggestSelection context click)
      = m.SuggestSelection context click := by
  have hecho : m.SuggestSelection context click = click := by
    unfold TextClassificationModel.SuggestSelection
    rcases h with h | h
    · rw [if_neg]
      intro hc
      rw [h] at hc
      exact absurd hc.1 (by simp)
    · rw [if_neg]
      intro hc
      exact h hc.2
  rw [hecho]
  exact hecho

/-- Witness for C9 (amended) at a concrete not-initialized container. -/
theorem suggestSelection_echo_idem_witness :
    modelUninit.SuggestSelection [] (modelUninit.SuggestSelection [] (0, 0))
      = modelUninit.SuggestSelection [] (0, 0) :=
  suggestSelection_echo_idem modelUninit [] (0, 0) (Or.inl rfl)

/-- C10: a default-constructed `AnnotatedSpan` has its span equal to the
invalid sentinel `(kInvalidIndex, kInvalidIndex)` and an empty
classification list, exactly as the header's member initializers state. -/
theorem annotatedSpan_default :
    ({} : AnnotatedSpan).span = (kInvalidIndex, kInvalidIndex)
    ∧ ({} : AnnotatedSpan).classification = [] :=
  ⟨rfl, rfl⟩

end libtextclassifier
